import Mathlib

/-!
Verification of the table-normalization pipeline of `src/central.py`
(`process_dataframe`), the core of the spreadsheet analytics dashboard.

The embedding models a pandas DataFrame shallowly:

* a cell is either missing (`NaN` in pandas, here `Cell.blank`), content that
  `pd.to_numeric` can coerce (here `Cell.num` carrying the numeric value as a
  rational), or non-blank content that fails numeric coercion
  (here `Cell.str` carrying the raw text);
* a DataFrame is a list of column labels together with rows, each row a list
  of cells aligned positionally with the labels;
* `st.error` + `st.stop` (a fatal halt) is modelled as returning
  `Except.error`, and the `st.warning` side effects are collected into an
  explicit `ValidationReport` value; the two unhandled TypeError halts —
  line 67's comma-join over non-string duplicated indicator values and
  line 117's label concatenation with a non-`NaN` non-string unit cell —
  are modelled as `Except.error FatalError.typeError`;
* `pd.melt` is modelled following pandas' implementation: the requested value
  columns are resolved to column positions, duplicate positions are dropped
  keeping first-seen order (so two distinct columns renamed to the same year
  are each melted once), and the surviving columns are stacked column-major;
* string formatting of the derived label column (line 117) is modelled
  structurally as the pair (value rounded to two decimals, unit cell);
  binary floating point is abstracted by exact rational arithmetic, and
  label/column-name collisions with pandas-internal reserved names are below
  this abstraction.
-/

namespace Central

/-- A cell of the raw or reshaped table. `blank` is pandas `NaN` (missing,
`notna` is false). `num v` is content that `pd.to_numeric` coerces to the
number `v` (a numeric cell, or numeric text). `str s` is non-blank content
that fails numeric coercion (e.g. the text `N/A`). -/
inductive Cell where
  | blank : Cell
  | num : Rat → Cell
  | str : String → Cell
  deriving DecidableEq

/-- pandas `Series.notna` on one cell: false exactly on missing values. -/
def Cell.notna : Cell → Bool
  | Cell.blank => false
  | _ => true

/-- Whether the cell's content is a Python string. Joining (line 67) or
concatenating (line 117) a non-string value raises an uncaught TypeError:
`NaN` is a float and numeric content is a number, only text is a `str`. -/
def Cell.isStr : Cell → Bool
  | Cell.str _ => true
  | _ => false

/-- pandas `pd.to_numeric(·, errors=coerce)` on one cell: numeric content is
kept, everything else becomes `NaN` (here `none`). Mirrors line 88. -/
def toNumeric : Cell → Option Rat
  | Cell.num v => some v
  | _ => none

/-- A raw wide-form table: column labels and rows of cells, positionally
aligned (the shape `pd.read_excel` yields). -/
structure RawTable where
  labels : List String
  rows : List (List Cell)
  deriving DecidableEq

/-- pandas `DataFrame.empty`: true iff the table has no rows or no columns.
Mirrors the check at line 51. -/
def RawTable.empty (t : RawTable) : Bool := t.rows.isEmpty || t.labels.isEmpty

/-- pandas `DataFrame.copy()` (line 55): a fresh table with the same labels
and rows; in-place operations on the copy leave the original untouched. -/
def RawTable.copy (t : RawTable) : RawTable := ⟨t.labels, t.rows⟩

/-- The three required identifier columns (line 58): category (表单),
indicator name (指标名称), unit (单位). -/
def REQUIRED_COLS : List String := ["表单", "指标名称", "单位"]

/-- The required columns absent from the table, in `REQUIRED_COLS` order
(line 59). -/
def missing_cols (t : RawTable) : List String :=
  REQUIRED_COLS.filter (fun col => !(t.labels.contains col))

/-- The cell of a row at column position `j` (missing positions read as
blank; well-formed rows are as long as the label list). -/
def cellAt (r : List Cell) (j : Nat) : Cell := r.getD j Cell.blank

/-- Position of the first column with the given label. -/
def colPos (t : RawTable) (name : String) : Option Nat :=
  t.labels.findIdx? (fun l => l == name)

/-- The cell of a row in the named column (blank if the column is absent). -/
def idCell (t : RawTable) (r : List Cell) (name : String) : Cell :=
  match colPos t name with
  | some j => cellAt r j
  | none => Cell.blank

/-- The indicator-name column `df[指标名称]` as a list of cells. -/
def indicatorColumn (t : RawTable) : List Cell :=
  t.rows.map (fun r => idCell t r "指标名称")

/-- pandas `Series.duplicated()` restricted to the marked values: the cells
at positions whose value already occurred earlier (`seen` accumulates the
prefix). A value occurring k times contributes k-1 marks. -/
def dupMarks : List Cell → List Cell → List Cell
  | _, [] => []
  | seen, c :: rest => (if c ∈ seen then [c] else []) ++ dupMarks (c :: seen) rest

/-- pandas `Series.unique()`: drop repeated values, keeping first
occurrences in order. -/
def dedupCells : List Cell → List Cell → List Cell
  | _, [] => []
  | seen, c :: rest =>
    if c ∈ seen then dedupCells seen rest else c :: dedupCells (c :: seen) rest

/-- Line 65: `df[指标名称][df[指标名称].duplicated()].unique()` — each
indicator name occurring more than once, listed once. -/
def duplicates (t : RawTable) : List Cell :=
  dedupCells [] (dupMarks [] (indicatorColumn t))

/-- Python `re.sub(r"\D", "", s)`: keep only the digit characters. -/
def stripNonDigits (s : String) : String :=
  String.mk (s.toList.filter (fun c => c.isDigit))

/-- Base-10 value of a digits-only string (Python `int` on the digits). -/
def digitsVal (s : String) : Nat :=
  s.toList.foldl (fun n c => 10 * n + (c.toNat - 48)) 0

/-- Line 72 per label: the cleaned year of a column label — strip every
non-digit and parse the rest as an integer; labels with no digits clean to
nothing (they are left out of `cleaned_colnames_map`). -/
def cleanLabel (s : String) : Option Nat :=
  if stripNonDigits s = "" then none else some (digitsVal (stripNonDigits s))

/-- Lines 71–72: the value columns that survive cleaning, as (column
position, cleaned year) pairs in column order — every column whose label is
not a required identifier column and contains at least one digit. -/
def valueColPairs (t : RawTable) : List (Nat × Nat) :=
  (List.range t.labels.length).filterMap (fun j =>
    (t.labels[j]?).bind (fun l =>
      if REQUIRED_COLS.contains l then none
      else (cleanLabel l).map (fun y => (j, y))))

/-- Drop repeated year keys, keeping first occurrences in order (pandas
`algos.unique` over the positions resolved for the melt). -/
def dedupNat : List Nat → List Nat → List Nat
  | _, [] => []
  | seen, y :: rest =>
    if y ∈ seen then dedupNat seen rest else y :: dedupNat (y :: seen) rest

/-- The value columns in the order pandas `melt` (line 77) stacks them:
`value_vars` is the cleaned-year list, each year resolves to every column
position renamed to it, and duplicate positions are dropped keeping
first-seen order — so columns are grouped by year key, years ordered by
first appearance, positions ascending within a year. -/
def meltPairs (t : RawTable) : List (Nat × Nat) :=
  (dedupNat [] ((valueColPairs t).map Prod.snd)).flatMap
    (fun y => (valueColPairs t).filter (fun p => p.2 == y))

/-- One row of the long-form table `df_long` produced by the melt at line
77: the three identifier cells, the year key (`年份`), and the raw value
cell (`数值`) before numeric coercion. -/
structure LongRow where
  category : Cell
  indicator : Cell
  unit : Cell
  year : Nat
  value : Cell
  deriving DecidableEq

/-- The long row the melt derives from one raw row and one melted value
column `p` (position, cleaned year): the row's identifier cells, the year
key, and the raw cell at the column's position. -/
def longOf (t : RawTable) (p : Nat × Nat) (r : List Cell) : LongRow :=
  { category := idCell t r "表单"
    indicator := idCell t r "指标名称"
    unit := idCell t r "单位"
    year := p.2
    value := cellAt r p.1 }

/-- Line 77: `df.melt(id_vars, value_vars_cleaned, 年份, 数值)` — one long
row per (melted value column, raw row), stacked column-major. -/
def meltTable (t : RawTable) : List LongRow :=
  (meltPairs t).flatMap (fun p => t.rows.map (longOf t p))

/-- Line 91: `original_values.notna() & df_long[数值].isna()` on one cell —
true exactly for non-blank content that failed numeric coercion. -/
def failedMask (c : Cell) : Bool := c.notna && (toNumeric c).isNone

/-- Floor of a rational (denominator is positive, so this is floor
division of numerator by denominator). -/
def ratFloor (q : Rat) : Int := q.num.fdiv (q.den : Int)

/-- Round a rational to the nearest integer, ties to even (numpy rounding,
with binary floating point abstracted as exact rational arithmetic). -/
def roundHalfEven (q : Rat) : Int :=
  let f : Int := ratFloor q
  if q - (f : Rat) < 1/2 then f
  else if (1:Rat)/2 < q - (f : Rat) then f + 1
  else if f % 2 = 0 then f else f + 1

/-- `Series.round(2)` on one value: round to two decimal places. -/
def round2 (v : Rat) : Rat := (roundHalfEven (100 * v) : Rat) / 100

/-- One row of the output table: identifier cells, integer year, coerced
numeric value, and the derived label of line 117 — modelled structurally as
the pair (value rounded to two decimals, unit cell) standing for the
formatted concatenation. -/
structure NormalizedRecord where
  category : Cell
  indicator : Cell
  unit : Cell
  year : Nat
  value : Rat
  label : Rat × Cell
  deriving DecidableEq

/-- Lines 115–117 applied to one surviving long row. -/
def mkRecord (r : LongRow) (v : Rat) : NormalizedRecord :=
  { category := r.category
    indicator := r.indicator
    unit := r.unit
    year := r.year
    value := v
    label := (round2 v, r.unit) }

/-- The warning side output of `process_dataframe`, made explicit:
`duplicates` is the duplicated-indicator warning of line 67; `failures` is
`failed_rows` of lines 94–96 — one entry per coercion failure, carrying
(indicator name, year, original raw value); `warning_named` is the list of
entries individually spelled out in the warning message (line 101 takes only
the first five); `warning_more` is the count of remaining failures that the
message summarizes in its trailing line (lines 107–108), zero when every
failure was named. -/
structure ValidationReport where
  duplicates : List Cell
  failures : List (Cell × Nat × Cell)
  warning_named : List (Cell × Nat × Cell)
  warning_more : Nat
  deriving DecidableEq

/-- The fatal halting conditions of `process_dataframe`: the explicit
`st.error` + `st.stop` halts — empty input table (line 51) and missing
required identifier columns (lines 59–62, carrying the missing names) — and
the uncaught-exception halt `typeError`, raised either by line 67's
`join` over the duplicated indicator values when one of them is not a
string (e.g. two blank 指标名称 cells, whose `NaN` duplicates the first),
or by line 117's string concatenation when a surviving row's 单位 cell is a
non-`NaN` non-string. -/
inductive FatalError where
  | emptyTable : FatalError
  | schemaError (missing : List String) : FatalError
  | typeError : FatalError
  deriving DecidableEq

/-- Lines 85–96: the coercion-failure record `failed_rows` — for each long
row whose raw value is non-blank but fails numeric coercion, the triple
(indicator name, year, original raw value), in long-table order. -/
def coercionFailures (t : RawTable) : List (Cell × Nat × Cell) :=
  ((meltTable t).filter (fun r => failedMask r.value)).map
    (fun r => (r.indicator, r.year, r.value))

/-- Lines 88, 113, 115–117: coerce the value column, drop rows whose
coerced value is missing, and derive the label — the output table. -/
def normalizedTable (t : RawTable) : List NormalizedRecord :=
  (meltTable t).filterMap (fun r => (toNumeric r.value).map (mkRecord r))

/-- The validation side output assembled by `process_dataframe`. -/
def buildReport (t : RawTable) : ValidationReport :=
  { duplicates := duplicates t
    failures := coercionFailures t
    warning_named := (coercionFailures t).take 5
    warning_more := (coercionFailures t).length - ((coercionFailures t).take 5).length }

/-- `process_dataframe` of `src/central.py` lines 46–119, with the caller's
table threaded through: the first component is the returned long table and
the accumulated warnings (or the fatal error on which the script halts), the
second component is the state of the caller's `df_raw` when the call ends —
line 55 copies it, and the in-place operations (rename at line 73, dropna at
line 113, the label assignment at line 117) target the copy `df` or tables
derived from it, never `df_raw`. Besides the two explicit `st.stop` halts,
the two unhandled TypeError halts are modelled: line 67 joins the duplicated
indicator values with a comma (only run when duplicates exist), which raises
when some duplicated value is not a string; and line 117 concatenates the
rounded value string with each surviving row's 单位 cell, which raises when
such a cell is a non-`NaN` non-string (a `NaN` unit propagates as `NaN`
instead of raising). -/
def process_dataframe_frame (df_raw : RawTable) :
    Except FatalError (List NormalizedRecord × ValidationReport) × RawTable :=
  if df_raw.empty then (Except.error FatalError.emptyTable, df_raw)
  else if (missing_cols df_raw.copy).isEmpty then
    if (duplicates df_raw.copy).any (fun c => !c.isStr) then
      (Except.error FatalError.typeError, df_raw)
    else if (normalizedTable df_raw.copy).any
        (fun rec => rec.unit.notna && !rec.unit.isStr) then
      (Except.error FatalError.typeError, df_raw)
    else
      (Except.ok (normalizedTable df_raw.copy, buildReport df_raw.copy), df_raw)
  else
    (Except.error (FatalError.schemaError (missing_cols df_raw.copy)), df_raw)

/-- `process_dataframe`: the value returned to the caller (or the fatal
error on which the script halts). -/
def process_dataframe (df_raw : RawTable) :
    Except FatalError (List NormalizedRecord × ValidationReport) :=
  (process_dataframe_frame df_raw).1

/-- Append one column at the right edge of a raw table: a new label and one
new cell per row. -/
def appendColumn (t : RawTable) (c : String) (vs : List Cell) : RawTable :=
  ⟨t.labels ++ [c], List.zipWith (fun r v => r ++ [v]) t.rows vs⟩

/-- The worked scenario of the spec: one indicator row, a clean year column
`2019` and a dirty year column `2021年` holding the non-numeric text `N/A`. -/
def sampleTable : RawTable :=
  { labels := ["表单", "指标名称", "单位", "2019", "2021年"]
    rows := [[Cell.str "经济增长", Cell.str "GDP增速", Cell.str "%",
              Cell.num 6, Cell.str "N/A"]] }

/-- A table whose indicator name `M1` occurs on two rows: the first row's
`2019` cell fails coercion while the second row's coerces. -/
def dupIndTable : RawTable :=
  { labels := ["表单", "指标名称", "单位", "2019"]
    rows := [[Cell.str "A", Cell.str "M1", Cell.str "%", Cell.str "N/A"],
             [Cell.str "A", Cell.str "M1", Cell.str "%", Cell.num 5]] }

/-- A table whose single row has a missing (blank) category cell but a
coercible year cell. -/
def blankIdTable : RawTable :=
  { labels := ["表单", "指标名称", "单位", "2019"]
    rows := [[Cell.blank, Cell.str "M1", Cell.str "%", Cell.num 5]] }

/-- A table that passes both structural checks (rows present, all required
columns present) but whose indicator column holds two blank cells: pandas
marks the second `NaN` as a duplicate of the first, so line 67 joins a
non-string duplicated value and raises an uncaught TypeError. -/
def dupBlankIndTable : RawTable :=
  { labels := ["表单", "指标名称", "单位", "2019"]
    rows := [[Cell.str "A", Cell.blank, Cell.str "%", Cell.num 1],
             [Cell.str "A", Cell.blank, Cell.str "%", Cell.num 2]] }

/-- A table with six year columns whose cells all fail numeric coercion on
its single row. -/
def manyFailTable : RawTable :=
  { labels := ["表单", "指标名称", "单位", "2019", "2020", "2021", "2022", "2023", "2024"]
    rows := [[Cell.str "A", Cell.str "M1", Cell.str "%", Cell.str "x1",
              Cell.str "x2", Cell.str "x3", Cell.str "x4", Cell.str "x5",
              Cell.str "x6"]] }

theorem copy_eq (t : RawTable) : t.copy = t := rfl

theorem mem_dedupNat : ∀ (l seen : List Nat) (y : Nat),
    y ∈ dedupNat seen l ↔ (y ∈ l ∧ y ∉ seen)
  | [], seen, y => by simp [dedupNat]
  | a :: rest, seen, y => by
    simp only [dedupNat]
    by_cases ha : a ∈ seen
    · rw [if_pos ha, mem_dedupNat rest seen y, List.mem_cons]
      constructor
      · exact fun h => ⟨Or.inr h.1, h.2⟩
      · rintro ⟨h | h, hns⟩
        · exact absurd (h ▸ ha) hns
        · exact ⟨h, hns⟩
    · rw [if_neg ha, List.mem_cons, mem_dedupNat rest (a :: seen) y, List.mem_cons,
        List.mem_cons]
      constructor
      · rintro (h | ⟨h1, h2⟩)
        · exact ⟨Or.inl h, fun hs => ha (h ▸ hs)⟩
        · exact ⟨Or.inr h1, fun hs => h2 (Or.inr hs)⟩
      · rintro ⟨h | h, hns⟩
        · exact Or.inl h
        · by_cases hya : y = a
          · exact Or.inl hya
          · refine Or.inr ⟨h, fun hc => ?_⟩
            rcases hc with hc | hc
            · exact hya hc
            · exact hns hc

theorem nodup_dedupNat : ∀ (l seen : List Nat), (dedupNat seen l).Nodup
  | [], _ => List.nodup_nil
  | a :: rest, seen => by
    simp only [dedupNat]
    by_cases ha : a ∈ seen
    · rw [if_pos ha]; exact nodup_dedupNat rest seen
    · rw [if_neg ha]
      refine List.Nodup.cons (fun hmem => ?_) (nodup_dedupNat rest (a :: seen))
      exact ((mem_dedupNat rest (a :: seen) a).mp hmem).2 (List.mem_cons_self a seen)


theorem count_dedupCells : ∀ (l seen : List Cell) (c : Cell),
    (dedupCells seen l).count c = if c ∈ l ∧ c ∉ seen then 1 else 0
  | [], seen, c => by simp [dedupCells]
  | a :: rest, seen, c => by
    have ih1 := count_dedupCells rest seen c
    have ih2 := count_dedupCells rest (a :: seen) c
    simp only [dedupCells]
    by_cases hac : a = c
    · subst hac
      by_cases hs : a ∈ seen
      · rw [if_pos hs, ih1]
        simp [hs]
      · rw [if_neg hs, List.count_cons, ih2, beq_self_eq_true]
        simp [hs, List.mem_cons_self]
    · by_cases hs : a ∈ seen
      · rw [if_pos hs, ih1]
        have hmem : (c ∈ a :: rest ∧ c ∉ seen) ↔ (c ∈ rest ∧ c ∉ seen) := by
          rw [List.mem_cons]
          constructor
          · rintro ⟨h | h, h2⟩
            · exact absurd (h ▸ hs) (h ▸ h2)
            · exact ⟨h, h2⟩
          · exact fun h => ⟨Or.inr h.1, h.2⟩
        rw [if_congr hmem rfl rfl]
      · rw [if_neg hs, List.count_cons, ih2, beq_eq_false_iff_ne.mpr hac]
        have hmem : (c ∈ rest ∧ c ∉ a :: seen) ↔ (c ∈ a :: rest ∧ c ∉ seen) := by
          rw [List.mem_cons, List.mem_cons]
          constructor
          · rintro ⟨h, h2⟩
            exact ⟨Or.inr h, fun hc => h2 (Or.inr hc)⟩
          · rintro ⟨h | h, h2⟩
            · exact absurd h.symm hac
            · refine ⟨h, fun hc => ?_⟩
              rcases hc with hc | hc
              · exact hac hc.symm
              · exact h2 hc
        rw [if_congr hmem rfl rfl]
        simp

theorem count_dupMarks : ∀ (l seen : List Cell) (c : Cell),
    (dupMarks seen l).count c + (if c ∈ seen then 0 else min 1 (l.count c)) = l.count c
  | [], seen, c => by simp [dupMarks]
  | a :: rest, seen, c => by
    have ih := count_dupMarks rest (a :: seen) c
    simp only [dupMarks, List.count_append, List.count_cons]
    by_cases hac : a = c
    · subst hac
      rw [if_pos (List.mem_cons_self a seen)] at ih
      rw [beq_self_eq_true]
      by_cases hs : a ∈ seen
      · rw [if_pos hs, if_pos hs]
        suffices hgoal : (List.count a [a]) = 1 by simp [hgoal]; omega
        simp
      · rw [if_neg hs, if_neg hs]
        simp only [List.count_nil, eq_self_iff_true, if_true]
        omega
    · rw [beq_eq_false_iff_ne.mpr hac]
      have hcount : (if a ∈ seen then [a] else ([] : List Cell)).count c = 0 := by
        split
        · simp [List.count_singleton]
          intro h
          exact absurd h hac
        · exact List.count_nil c
      rw [hcount]
      have hmemiff : c ∈ a :: seen ↔ c ∈ seen := by
        rw [List.mem_cons]
        exact ⟨fun h => h.elim (fun he => absurd he.symm hac) id, Or.inr⟩
      by_cases hs : c ∈ seen
      · rw [if_pos (hmemiff.mpr hs)] at ih
        rw [if_pos hs]
        simp only [Bool.false_eq_true, if_false]
        omega
      · rw [if_neg (fun h => hs (hmemiff.mp h))] at ih
        rw [if_neg hs]
        simp only [Bool.false_eq_true, if_false]
        omega

theorem mem_dupMarks_nil (l : List Cell) (c : Cell) :
    c ∈ dupMarks [] l ↔ 2 ≤ l.count c := by
  have h := count_dupMarks l [] c
  rw [if_neg (List.not_mem_nil c)] at h
  rw [← List.count_pos_iff]
  omega

theorem flatMap_filter_congr (l : List Nat) (P Q : List (Nat × Nat))
    (h : ∀ y ∈ l, P.filter (fun p => p.2 == y) = Q.filter (fun p => p.2 == y)) :
    l.flatMap (fun y => P.filter (fun p => p.2 == y))
      = l.flatMap (fun y => Q.filter (fun p => p.2 == y)) := by
  induction l with
  | nil => rfl
  | cons a rest ih =>
    simp only [List.flatMap_cons]
    rw [h a (List.mem_cons_self a rest), ih (fun y hy => h y (List.mem_cons_of_mem a hy))]

theorem perm_flatMap_groups : ∀ (l : List Nat) (P : List (Nat × Nat)),
    l.Nodup → (∀ p ∈ P, p.2 ∈ l) →
    List.Perm (l.flatMap (fun y => P.filter (fun p => p.2 == y))) P
  | [], P, _, hcov => by
    cases P with
    | nil => simp
    | cons p rest => exact absurd (hcov p (List.mem_cons_self p rest)) (List.not_mem_nil _)
  | a :: rest, P, hnd, hcov => by
    have hnd2 := List.nodup_cons.mp hnd
    simp only [List.flatMap_cons]
    have hfilter : ∀ y ∈ rest, P.filter (fun p => p.2 == y)
        = (P.filter (fun p => !(p.2 == a))).filter (fun p => p.2 == y) := by
      intro y hy
      rw [List.filter_filter]
      apply List.filter_congr
      intro p _
      by_cases hpy : p.2 = y
      · have hpa : (p.2 == a) = false :=
          beq_eq_false_iff_ne.mpr (fun h => hnd2.1 (h ▸ hpy ▸ hy))
        simp [hpa]
      · simp [beq_eq_false_iff_ne.mpr hpy]
    rw [flatMap_filter_congr rest P (P.filter (fun p => !(p.2 == a))) hfilter]
    have hcov2 : ∀ p ∈ P.filter (fun p => !(p.2 == a)), p.2 ∈ rest := by
      intro p hp
      rw [List.mem_filter] at hp
      rcases List.mem_cons.mp (hcov p hp.1) with h | h
      · exact absurd h (by simpa using hp.2)
      · exact h
    have ihperm := perm_flatMap_groups rest (P.filter (fun p => !(p.2 == a))) hnd2.2 hcov2
    exact (ihperm.append_left _).trans (List.filter_append_perm _ P)

theorem meltPairs_perm (t : RawTable) : List.Perm (meltPairs t) (valueColPairs t) := by
  apply perm_flatMap_groups
  · exact nodup_dedupNat _ _
  · intro p hp
    exact (mem_dedupNat _ [] p.2).mpr ⟨List.mem_map_of_mem Prod.snd hp, List.not_mem_nil _⟩

theorem mem_meltPairs (t : RawTable) (p : Nat × Nat) :
    p ∈ meltPairs t ↔ p ∈ valueColPairs t := (meltPairs_perm t).mem_iff

theorem filter_flatMap_groups : ∀ (l : List Nat), l.Nodup → ∀ (P : List (Nat × Nat)) (y : Nat),
    (l.flatMap (fun y2 => P.filter (fun p => p.2 == y2))).filter (fun p => p.2 == y)
      = if y ∈ l then P.filter (fun p => p.2 == y) else []
  | [], _, P, y => by simp
  | a :: rest, hnd, P, y => by
    have hnd2 := List.nodup_cons.mp hnd
    simp only [List.flatMap_cons, List.filter_append]
    rw [filter_flatMap_groups rest hnd2.2 P y, List.filter_filter]
    by_cases hya : y = a
    · subst hya
      rw [if_neg (fun h => hnd2.1 h), if_pos (List.mem_cons_self y rest)]
      rw [List.append_nil]
      apply List.filter_congr
      intro p _
      by_cases hp : p.2 = y
      · simp [hp]
      · simp [beq_eq_false_iff_ne.mpr hp]
    · have hfirst : P.filter (fun p => (p.2 == y) && (p.2 == a)) = [] := by
        apply List.filter_eq_nil_iff.mpr
        intro p _
        by_cases hp : p.2 = y
        · have : (p.2 == a) = false :=
            beq_eq_false_iff_ne.mpr (fun h => hya (hp.symm.trans h))
          simp [this]
        · simp [beq_eq_false_iff_ne.mpr hp]
      rw [hfirst, List.nil_append]
      have hmem : (y ∈ a :: rest) ↔ y ∈ rest := by
        rw [List.mem_cons]
        exact ⟨fun h => h.elim (fun he => absurd he hya) id, Or.inr⟩
      rw [if_congr hmem rfl rfl]

theorem meltPairs_filter (t : RawTable) (y : Nat) :
    (meltPairs t).filter (fun p => p.2 == y)
      = (valueColPairs t).filter (fun p => p.2 == y) := by
  rw [meltPairs, filter_flatMap_groups _ (nodup_dedupNat _ _)]
  by_cases h : y ∈ dedupNat [] ((valueColPairs t).map Prod.snd)
  · rw [if_pos h]
  · rw [if_neg h]
    symm
    apply List.filter_eq_nil_iff.mpr
    intro p hp
    by_cases hpy : p.2 = y
    · exact absurd ((mem_dedupNat _ [] y).mpr
        ⟨hpy ▸ List.mem_map_of_mem Prod.snd hp, List.not_mem_nil _⟩) h
    · simp [beq_eq_false_iff_ne.mpr hpy]

theorem count_duplicates (t : RawTable) (c : Cell) :
    (duplicates t).count c = if 2 ≤ (indicatorColumn t).count c then 1 else 0 := by
  rw [duplicates, count_dedupCells]
  by_cases h : 2 ≤ (indicatorColumn t).count c
  · rw [if_pos h, if_pos]
    exact ⟨(mem_dupMarks_nil _ c).mpr h, List.not_mem_nil c⟩
  · rw [if_neg h, if_neg]
    rintro ⟨hmem, -⟩
    exact h ((mem_dupMarks_nil _ c).mp hmem)

theorem countP_flatMap {α β : Type} (l : List α) (f : α → List β) (q : β → Bool) :
    (l.flatMap f).countP q = (l.map (fun a => (f a).countP q)).sum := by
  induction l with
  | nil => rfl
  | cons a rest ih => simp [List.flatMap_cons, List.countP_append, ih]

theorem countP_filterMap {α β : Type} (l : List α) (f : α → Option β) (q : β → Bool) :
    (l.filterMap f).countP q
      = l.countP (fun a => match f a with | some b => q b | none => false) := by
  induction l with
  | nil => rfl
  | cons a rest ih =>
    cases hfa : f a with
    | none => simp [List.filterMap_cons, hfa, List.countP_cons, ih]
    | some b => simp [List.filterMap_cons, hfa, List.countP_cons, ih]

theorem length_filterMap {α β : Type} (l : List α) (f : α → Option β) :
    (l.filterMap f).length = l.countP (fun a => (f a).isSome) := by
  induction l with
  | nil => rfl
  | cons a rest ih =>
    cases hfa : f a <;> simp [List.filterMap_cons, hfa, List.countP_cons, ih]

theorem sum_map_ite_count {α : Type} (l : List α) (q : α → Bool) (n : Nat) :
    (l.map (fun a => if q a then n else 0)).sum = l.countP q * n := by
  induction l with
  | nil => simp
  | cons a rest ih =>
    simp only [List.map_cons, List.sum_cons, List.countP_cons, ih]
    by_cases hq : q a
    · simp only [hq, if_true]
      ring
    · simp [hq]

theorem sum_map_filter_ite {α : Type} (l : List α) (q : α → Bool) (g : α → Nat) :
    (l.map (fun a => if q a then g a else 0)).sum = ((l.filter q).map g).sum := by
  induction l with
  | nil => rfl
  | cons a rest ih => by_cases hq : q a <;> simp [List.filter_cons, hq, ih]

theorem sum_map_le {α : Type} (l : List α) (g : α → Nat) (n : Nat)
    (h : ∀ a ∈ l, g a ≤ n) :
    (l.map g).sum ≤ l.length * n ∧
      ((l.map g).sum = l.length * n ↔ ∀ a ∈ l, g a = n) := by
  induction l with
  | nil => simp
  | cons a rest ih =>
    have ha := h a (List.mem_cons_self a rest)
    have ih2 := ih (fun b hb => h b (List.mem_cons_of_mem a hb))
    have hs := ih2.1
    simp only [List.map_cons, List.sum_cons, List.length_cons]
    have hexp : (rest.length + 1) * n = rest.length * n + n := by ring
    constructor
    · rw [hexp]
      omega
    · constructor
      · intro heq
        rw [hexp] at heq
        have h1 : g a = n ∧ (rest.map g).sum = rest.length * n := by
          generalize hM : rest.length * n = M at heq hs
          omega
        intro b hb
        rcases List.mem_cons.mp hb with hb | hb
        · exact hb ▸ h1.1
        · exact (ih2.2.mp h1.2) b hb
      · intro hall
        rw [hall a (List.mem_cons_self a rest),
          ih2.2.mpr (fun b hb => hall b (List.mem_cons_of_mem a hb))]
        ring

theorem mem_meltTable (t : RawTable) (lr : LongRow) :
    lr ∈ meltTable t ↔ ∃ p ∈ valueColPairs t, ∃ r ∈ t.rows, lr = longOf t p r := by
  rw [meltTable, List.mem_flatMap]
  constructor
  · rintro ⟨p, hp, hmem⟩
    obtain ⟨r, hr, heq⟩ := List.mem_map.mp hmem
    exact ⟨p, (mem_meltPairs t p).mp hp, r, hr, heq.symm⟩
  · rintro ⟨p, hp, r, hr, heq⟩
    exact ⟨p, (mem_meltPairs t p).mpr hp, List.mem_map.mpr ⟨r, hr, heq.symm⟩⟩

theorem process_frame_snd (t : RawTable) : (process_dataframe_frame t).2 = t := by
  rw [process_dataframe_frame]
  split
  · rfl
  · split
    · split
      · rfl
      · split <;> rfl
    · rfl

theorem process_eq_ok (t : RawTable) (h1 : t.empty = false) (h2 : missing_cols t = [])
    (h3 : (duplicates t).any (fun d => !d.isStr) = false)
    (h4 : (normalizedTable t).any (fun rec => rec.unit.notna && !rec.unit.isStr) = false) :
    process_dataframe t = Except.ok (normalizedTable t, buildReport t) := by
  rw [process_dataframe, process_dataframe_frame]
  rw [if_neg (by rw [h1]; exact Bool.false_ne_true)]
  rw [copy_eq]
  rw [if_pos (by rw [h2]; rfl)]
  rw [if_neg (by rw [h3]; exact Bool.false_ne_true)]
  rw [if_neg (by rw [h4]; exact Bool.false_ne_true)]

theorem process_ok_inv (t : RawTable) (tbl : List NormalizedRecord)
    (rep : ValidationReport) (h : process_dataframe t = Except.ok (tbl, rep)) :
    t.empty = false ∧ missing_cols t = [] ∧ tbl = normalizedTable t
      ∧ rep = buildReport t := by
  rw [process_dataframe, process_dataframe_frame] at h
  by_cases h1 : t.empty
  · rw [if_pos h1] at h
    exact absurd h (by simp)
  · rw [if_neg h1] at h
    by_cases h2 : (missing_cols t.copy).isEmpty
    · rw [if_pos h2] at h
      by_cases h3 : (duplicates t.copy).any (fun d => !d.isStr)
      · rw [if_pos h3] at h
        exact absurd h (by simp)
      · rw [if_neg h3] at h
        by_cases h4 : (normalizedTable t.copy).any
            (fun rec => rec.unit.notna && !rec.unit.isStr)
        · rw [if_pos h4] at h
          exact absurd h (by simp)
        · rw [if_neg h4] at h
          rw [copy_eq] at h h2
          simp only [Prod.mk.injEq, Except.ok.injEq] at h
          refine ⟨by simpa using h1, ?_, h.1.symm, h.2.symm⟩
          simpa [List.isEmpty_iff] using h2
    · rw [if_neg h2] at h
      exact absurd h (by simp)

theorem process_ok_no_crash (t : RawTable) (tbl : List NormalizedRecord)
    (rep : ValidationReport) (h : process_dataframe t = Except.ok (tbl, rep)) :
    (duplicates t).any (fun d => !d.isStr) = false
      ∧ (normalizedTable t).any (fun rec => rec.unit.notna && !rec.unit.isStr) = false := by
  rw [process_dataframe, process_dataframe_frame] at h
  by_cases h1 : t.empty
  · rw [if_pos h1] at h
    exact absurd h (by simp)
  · rw [if_neg h1] at h
    by_cases h2 : (missing_cols t.copy).isEmpty
    · rw [if_pos h2] at h
      by_cases h3 : (duplicates t.copy).any (fun d => !d.isStr)
      · rw [if_pos h3] at h
        exact absurd h (by simp)
      · rw [if_neg h3] at h
        by_cases h4 : (normalizedTable t.copy).any
            (fun rec => rec.unit.notna && !rec.unit.isStr)
        · rw [if_pos h4] at h
          exact absurd h (by simp)
        · rw [copy_eq] at h3 h4
          exact ⟨by simpa using h3, by simpa using h4⟩
    · rw [if_neg h2] at h
      exact absurd h (by simp)

theorem sum_map_const {α : Type} (l : List α) (c : Nat) :
    (l.map (fun _ => c)).sum = l.length * c := by
  induction l with
  | nil => simp
  | cons a rest ih =>
    simp only [List.map_cons, List.sum_cons, List.length_cons, ih]
    ring

theorem countP_meltTable_year (t : RawTable) (y : Nat) :
    (meltTable t).countP (fun lr => lr.year == y)
      = ((valueColPairs t).countP (fun p => p.2 == y)) * t.rows.length := by
  rw [meltTable, countP_flatMap]
  have hpt : ∀ p : Nat × Nat,
      (t.rows.map (longOf t p)).countP (fun lr => lr.year == y)
        = if p.2 == y then t.rows.length else 0 := by
    intro p
    rw [List.countP_map]
    by_cases hp : p.2 = y
    · simp [longOf, Function.comp, hp, List.countP_true]
    · simp [longOf, Function.comp, beq_eq_false_iff_ne.mpr hp]
  rw [funext hpt, sum_map_ite_count, (meltPairs_perm t).countP_eq]

theorem length_normalizedTable (t : RawTable) :
    (normalizedTable t).length
      = (meltTable t).countP (fun lr => (toNumeric lr.value).isSome) := by
  rw [normalizedTable, length_filterMap]
  simp [Option.isSome_map]

theorem countP_meltTable_ind (t : RawTable) (name : Cell) :
    (meltTable t).countP (fun lr => lr.indicator == name)
      = (valueColPairs t).length
          * (t.rows.countP (fun r => idCell t r "指标名称" == name)) := by
  rw [meltTable, countP_flatMap]
  have hpt : ∀ p : Nat × Nat,
      (t.rows.map (longOf t p)).countP (fun lr => lr.indicator == name)
        = t.rows.countP (fun r => idCell t r "指标名称" == name) := by
    intro p
    rw [List.countP_map]
    rfl
  rw [funext hpt, sum_map_const, (meltPairs_perm t).length_eq]

theorem toNumeric_blank : toNumeric Cell.blank = none := rfl

theorem toNumeric_num (v : Rat) : toNumeric (Cell.num v) = some v := rfl

theorem toNumeric_str (s : String) : toNumeric (Cell.str s) = none := rfl

theorem failedMask_blank : failedMask Cell.blank = false := rfl

theorem failedMask_num (v : Rat) : failedMask (Cell.num v) = false := rfl

theorem failedMask_str (s : String) : failedMask (Cell.str s) = true := rfl

theorem beq_num_blank (v : Rat) : (Cell.num v == Cell.blank) = false :=
  beq_eq_false_iff_ne.mpr (fun h => Cell.noConfusion h)

theorem beq_str_blank (s : String) : (Cell.str s == Cell.blank) = false :=
  beq_eq_false_iff_ne.mpr (fun h => Cell.noConfusion h)

theorem melt_partition (l : List LongRow) :
    (l.filterMap (fun r => (toNumeric r.value).map (mkRecord r))).length
      + ((l.filter (fun r => failedMask r.value)).map
          (fun r => (r.indicator, r.year, r.value))).length
      + l.countP (fun r => r.value == Cell.blank) = l.length := by
  induction l with
  | nil => rfl
  | cons a rest ih =>
    cases hv : a.value with
    | blank =>
      have h1 : (toNumeric a.value).map (mkRecord a) = none := by rw [hv, toNumeric_blank]; rfl
      have h2 : failedMask a.value = false := by rw [hv, failedMask_blank]
      have h3 : (a.value == Cell.blank) = true := by rw [hv]; rfl
      simp only [List.filterMap_cons, h1, List.filter_cons, h2, Bool.false_eq_true,
        if_false, List.countP_cons, h3, if_true, List.length_cons]
      omega
    | num v =>
      have h1 : (toNumeric a.value).map (mkRecord a) = some (mkRecord a v) := by
        rw [hv, toNumeric_num]; rfl
      have h2 : failedMask a.value = false := by rw [hv, failedMask_num]
      have h3 : (a.value == Cell.blank) = false := by rw [hv, beq_num_blank]
      simp only [List.filterMap_cons, h1, List.filter_cons, h2, Bool.false_eq_true,
        if_false, List.countP_cons, h3, List.length_cons]
      omega
    | str s =>
      have h1 : (toNumeric a.value).map (mkRecord a) = none := by rw [hv, toNumeric_str]; rfl
      have h2 : failedMask a.value = true := by rw [hv, failedMask_str]
      have h3 : (a.value == Cell.blank) = false := by rw [hv, beq_str_blank]
      simp only [List.filterMap_cons, h1, List.filter_cons, h2, if_true,
        List.countP_cons, h3, Bool.false_eq_true, if_false, List.map_cons,
        List.length_cons]
      omega

/-- C10: `process_dataframe` does not modify its input RawTable — line 55
copies `df_raw`, and the in-place operations (the column rename at line 73,
the dropna at line 113, the label assignment at line 117) target the copy or
tables derived from it, never `df_raw`; so however the call ends, the
caller's table — the second component of `process_dataframe_frame` — still
has exactly its original column labels and rows. -/
theorem c10_input_table_unmodified (t : RawTable) :
    (process_dataframe_frame t).2 = t ∧ (process_dataframe_frame t).2.labels = t.labels
      ∧ (process_dataframe_frame t).2.rows = t.rows := by
  have h : (process_dataframe_frame t).2 = t := by
    rw [process_dataframe_frame]
    split
    · rfl
    · split
      · split
        · rfl
        · split <;> rfl
      · rfl
  exact ⟨h, by rw [h], by rw [h]⟩

/-- Counterexample to C5 as stated: this table has rows and every required
identifier column — neither of the two structural conditions holds — yet the
program still halts: its indicator column holds two blank cells, pandas
marks the second `NaN` as a duplicate of the first, and line 67's comma-join
over the duplicated values raises an uncaught TypeError on the non-string
value. So data-quality findings can halt `process_dataframe`. -/
theorem c5_counterexample_type_error_halt :
    process_dataframe dupBlankIndTable = Except.error FatalError.typeError
      ∧ dupBlankIndTable.rows ≠ [] ∧ missing_cols dupBlankIndTable = [] := by
  refine ⟨rfl, ?_, ?_⟩
  · decide
  · decide

/-- C5 amended: `process_dataframe` halts fatally exactly when the input
table has zero rows (`EmptyTableError`, line 51), a required identifier
column is missing (`SchemaError` carrying the missing names, lines 59–62),
or an uncaught TypeError is raised — when some duplicated indicator value is
not a string (line 67's join) or some surviving row's unit cell is a
non-`NaN` non-string (line 117's concatenation). Duplicate string-valued
indicator names and non-numeric data cells never halt it: whenever the table
has rows, all required columns, string duplicated indicator values and no
non-`NaN` non-string unit on a surviving row, it returns the normalized
table together with the validation report. (pandas `DataFrame.empty` is also
true for a table with rows but zero columns; such a table has every required
column missing, so the halting condition is unchanged, and the schema-error
attribution below is stated for tables that have at least one column.) -/
theorem c5_fatal_halting_characterized (t : RawTable) :
    ((∃ e, process_dataframe t = Except.error e)
        ↔ (t.rows = [] ∨ missing_cols t ≠ []
            ∨ (duplicates t).any (fun d => !d.isStr) = true
            ∨ (normalizedTable t).any
                (fun rec => rec.unit.notna && !rec.unit.isStr) = true))
    ∧ (t.rows = [] → process_dataframe t = Except.error FatalError.emptyTable)
    ∧ (t.rows ≠ [] → t.labels ≠ [] → missing_cols t ≠ [] →
        process_dataframe t = Except.error (FatalError.schemaError (missing_cols t)))
    ∧ (t.rows ≠ [] → missing_cols t = [] →
        ((duplicates t).any (fun d => !d.isStr) = true
          ∨ (normalizedTable t).any
              (fun rec => rec.unit.notna && !rec.unit.isStr) = true) →
        process_dataframe t = Except.error FatalError.typeError)
    ∧ (t.rows ≠ [] → missing_cols t = [] →
        (duplicates t).any (fun d => !d.isStr) = false →
        (normalizedTable t).any (fun rec => rec.unit.notna && !rec.unit.isStr) = false →
        process_dataframe t = Except.ok (normalizedTable t, buildReport t)) := by
  have hemp : t.rows = [] → process_dataframe t = Except.error FatalError.emptyTable := by
    intro h
    have he : t.empty = true := by rw [RawTable.empty, h]; rfl
    rw [process_dataframe, process_dataframe_frame, if_pos he]
  have hempl : t.labels = [] → process_dataframe t = Except.error FatalError.emptyTable := by
    intro h
    have he : t.empty = true := by rw [RawTable.empty, h]; simp
    rw [process_dataframe, process_dataframe_frame, if_pos he]
  have hnotempty : t.rows ≠ [] → t.labels ≠ [] → t.empty = false := by
    intro hr hl
    have h1 : t.rows.isEmpty = false := by
      cases h : t.rows with
      | nil => exact absurd h hr
      | cons a l => rfl
    have h2 : t.labels.isEmpty = false := by
      cases h : t.labels with
      | nil => exact absurd h hl
      | cons a l => rfl
    rw [RawTable.empty, h1, h2]
    rfl
  have hschema : t.rows ≠ [] → t.labels ≠ [] → missing_cols t ≠ [] →
      process_dataframe t = Except.error (FatalError.schemaError (missing_cols t)) := by
    intro hr hl hm
    rw [process_dataframe, process_dataframe_frame,
      if_neg (by rw [hnotempty hr hl]; exact Bool.false_ne_true), copy_eq,
      if_neg (fun hc => hm (List.isEmpty_iff.mp hc))]
  have hlabmem : missing_cols t = [] → "表单" ∈ t.labels := by
    intro hm
    have hq := List.filter_eq_nil_iff.mp hm "表单" (by simp [REQUIRED_COLS])
    cases hcc : t.labels.contains "表单" with
    | false => exact absurd (by rw [hcc]; rfl) hq
    | true => exact List.elem_iff.mp hcc
  have hlabne : missing_cols t = [] → t.labels ≠ [] := by
    intro hm h
    have := hlabmem hm
    rw [h] at this
    exact List.not_mem_nil _ this
  have hcrash : t.rows ≠ [] → missing_cols t = [] →
      ((duplicates t).any (fun d => !d.isStr) = true
        ∨ (normalizedTable t).any
            (fun rec => rec.unit.notna && !rec.unit.isStr) = true) →
      process_dataframe t = Except.error FatalError.typeError := by
    intro hr hm hcr
    rw [process_dataframe, process_dataframe_frame,
      if_neg (by rw [hnotempty hr (hlabne hm)]; exact Bool.false_ne_true), copy_eq,
      if_pos (by rw [hm]; rfl)]
    rcases hcr with hcr | hcr
    · rw [if_pos hcr]
    · by_cases hj : (duplicates t).any (fun d => !d.isStr)
      · rw [if_pos hj]
      · rw [if_neg hj, if_pos hcr]
  have hok : t.rows ≠ [] → missing_cols t = [] →
      (duplicates t).any (fun d => !d.isStr) = false →
      (normalizedTable t).any (fun rec => rec.unit.notna && !rec.unit.isStr) = false →
      process_dataframe t = Except.ok (normalizedTable t, buildReport t) := by
    intro hr hm h3 h4
    exact process_eq_ok t (hnotempty hr (hlabne hm)) hm h3 h4
  refine ⟨⟨?_, ?_⟩, hemp, hschema, hcrash, hok⟩
  · rintro ⟨e, he⟩
    by_contra hcon
    push_neg at hcon
    obtain ⟨hr, hm, hj, hl2⟩ := hcon
    rw [hok hr hm (by simpa using hj) (by simpa using hl2)] at he
    exact Except.noConfusion he
  · rintro (h | h | h | h)
    · exact ⟨_, hemp h⟩
    · by_cases hr : t.rows = []
      · exact ⟨_, hemp hr⟩
      · by_cases hl : t.labels = []
        · exact ⟨_, hempl hl⟩
        · exact ⟨_, hschema hr hl h⟩
    · by_cases hr : t.rows = []
      · exact ⟨_, hemp hr⟩
      · by_cases hm : missing_cols t = []
        · exact ⟨_, hcrash hr hm (Or.inl h)⟩
        · by_cases hl : t.labels = []
          · exact ⟨_, hempl hl⟩
          · exact ⟨_, hschema hr hl hm⟩
    · by_cases hr : t.rows = []
      · exact ⟨_, hemp hr⟩
      · by_cases hm : missing_cols t = []
        · exact ⟨_, hcrash hr hm (Or.inr h)⟩
        · by_cases hl : t.labels = []
          · exact ⟨_, hempl hl⟩
          · exact ⟨_, hschema hr hl hm⟩

/-- Witness for the amended C5: the empty-rows table halts with the
empty-table error, and the sample table (which has data-quality problems: a
non-numeric cell, but string indicator names and string units) still returns
successfully. -/
theorem c5_fatal_halting_characterized_witness :
    process_dataframe (RawTable.mk ["表单", "指标名称", "单位"] [])
        = Except.error FatalError.emptyTable
      ∧ process_dataframe sampleTable
        = Except.ok (normalizedTable sampleTable, buildReport sampleTable) :=
  ⟨(c5_fatal_halting_characterized (RawTable.mk ["表单", "指标名称", "单位"] [])).2.1 rfl,
   (c5_fatal_halting_characterized sampleTable).2.2.2.2 (by decide) (by decide)
     (by decide) (by decide)⟩

theorem countP_year_filterMap (l : List LongRow) (y : Nat) :
    ((l.filterMap (fun r => (toNumeric r.value).map (mkRecord r))).countP
        (fun rec => rec.year == y))
      = l.countP (fun lr => (toNumeric lr.value).isSome && (lr.year == y)) := by
  induction l with
  | nil => rfl
  | cons a rest ih =>
    cases hv : a.value with
    | blank =>
      have h1 : (toNumeric a.value).map (mkRecord a) = none := by
        rw [hv, toNumeric_blank]; rfl
      have h2 : ((toNumeric a.value).isSome && (a.year == y)) = false := by
        rw [hv, toNumeric_blank]; rfl
      simp only [List.filterMap_cons, h1, List.countP_cons, h2, Bool.false_eq_true,
        if_false, Nat.add_zero, ih]
    | num v =>
      have h1 : (toNumeric a.value).map (mkRecord a) = some (mkRecord a v) := by
        rw [hv, toNumeric_num]; rfl
      have h2 : ((toNumeric a.value).isSome && (a.year == y)) = (a.year == y) := by
        rw [hv, toNumeric_num]; exact Bool.true_and _
      have h3 : ((mkRecord a v).year == y) = (a.year == y) := rfl
      simp only [List.filterMap_cons, h1, List.countP_cons, h2, h3, ih]
    | str s =>
      have h1 : (toNumeric a.value).map (mkRecord a) = none := by
        rw [hv, toNumeric_str]; rfl
      have h2 : ((toNumeric a.value).isSome && (a.year == y)) = false := by
        rw [hv, toNumeric_str]; rfl
      simp only [List.filterMap_cons, h1, List.countP_cons, h2, Bool.false_eq_true,
        if_false, Nat.add_zero, ih]

theorem countP_ind_filterMap (l : List LongRow) (name : Cell) :
    ((l.filterMap (fun r => (toNumeric r.value).map (mkRecord r))).countP
        (fun rec => rec.indicator == name))
      = l.countP (fun lr => (toNumeric lr.value).isSome && (lr.indicator == name)) := by
  induction l with
  | nil => rfl
  | cons a rest ih =>
    cases hv : a.value with
    | blank =>
      have h1 : (toNumeric a.value).map (mkRecord a) = none := by
        rw [hv, toNumeric_blank]; rfl
      have h2 : ((toNumeric a.value).isSome && (a.indicator == name)) = false := by
        rw [hv, toNumeric_blank]; rfl
      simp only [List.filterMap_cons, h1, List.countP_cons, h2, Bool.false_eq_true,
        if_false, Nat.add_zero, ih]
    | num v =>
      have h1 : (toNumeric a.value).map (mkRecord a) = some (mkRecord a v) := by
        rw [hv, toNumeric_num]; rfl
      have h2 : ((toNumeric a.value).isSome && (a.indicator == name))
          = (a.indicator == name) := by
        rw [hv, toNumeric_num]; exact Bool.true_and _
      have h3 : ((mkRecord a v).indicator == name) = (a.indicator == name) := rfl
      simp only [List.filterMap_cons, h1, List.countP_cons, h2, h3, ih]
    | str s =>
      have h1 : (toNumeric a.value).map (mkRecord a) = none := by
        rw [hv, toNumeric_str]; rfl
      have h2 : ((toNumeric a.value).isSome && (a.indicator == name)) = false := by
        rw [hv, toNumeric_str]; rfl
      simp only [List.filterMap_cons, h1, List.countP_cons, h2, Bool.false_eq_true,
        if_false, Nat.add_zero, ih]

/-- C6: rows of the long table whose value cell is blank are dropped
silently — every entry of the coercion-failure list carries a non-blank
(text) raw value (so no blank cell is ever reported), the output rows,
reported failures and silently dropped blank rows exactly partition the long
table, and every output row stems from a numerically coercible cell. -/
theorem c6_blank_cells_dropped_silently (t : RawTable) (tbl : List NormalizedRecord)
    (rep : ValidationReport) (h : process_dataframe t = Except.ok (tbl, rep)) :
    (∀ e ∈ rep.failures, ∃ s, e.2.2 = Cell.str s)
    ∧ tbl.length + rep.failures.length
        + (meltTable t).countP (fun lr => lr.value == Cell.blank)
        = (meltTable t).length
    ∧ (∀ rec ∈ tbl, ∃ lr ∈ meltTable t, lr.value = Cell.num rec.value) := by
  obtain ⟨-, -, htbl, hrep⟩ := process_ok_inv t tbl rep h
  subst htbl hrep
  refine ⟨?_, ?_, ?_⟩
  · intro e he
    have he2 : e ∈ coercionFailures t := he
    rw [coercionFailures] at he2
    obtain ⟨lr, hmem, heq⟩ := List.mem_map.mp he2
    obtain ⟨-, hmask⟩ := List.mem_filter.mp hmem
    cases hv : lr.value with
    | blank => rw [hv, failedMask_blank] at hmask; exact Bool.noConfusion hmask
    | num v => rw [hv, failedMask_num] at hmask; exact Bool.noConfusion hmask
    | str s => exact ⟨s, by rw [← heq, hv]⟩
  · show (normalizedTable t).length + (coercionFailures t).length + _ = _
    rw [normalizedTable, coercionFailures]
    exact melt_partition (meltTable t)
  · intro rec hrec
    have hrec2 : rec ∈ normalizedTable t := hrec
    rw [normalizedTable] at hrec2
    obtain ⟨lr, hlr, heq⟩ := List.mem_filterMap.mp hrec2
    obtain ⟨v, hv, hrec3⟩ := Option.map_eq_some'.mp heq
    refine ⟨lr, hlr, ?_⟩
    have hval : rec.value = v := by rw [← hrec3]; rfl
    rw [hval]
    cases hc : lr.value with
    | blank => rw [hc, toNumeric_blank] at hv; exact Option.noConfusion hv
    | num w =>
      rw [hc, toNumeric_num] at hv
      rw [Option.some.injEq] at hv
      rw [hv]
    | str s => rw [hc, toNumeric_str] at hv; exact Option.noConfusion hv

/-- Witness for C6 at the sample table: its long table has two rows, one
kept (year 2019) and one reported (the `N/A` cell), none blank. -/
theorem c6_blank_cells_dropped_silently_witness :
    ((buildReport sampleTable).failures.all
        (fun e => match e.2.2 with | Cell.str _ => true | _ => false)) = true
      ∧ (normalizedTable sampleTable).length + (buildReport sampleTable).failures.length
          + (meltTable sampleTable).countP (fun lr => lr.value == Cell.blank)
        = (meltTable sampleTable).length := by
  have h := c6_blank_cells_dropped_silently sampleTable
    (normalizedTable sampleTable) (buildReport sampleTable) rfl
  refine ⟨?_, h.2.1⟩
  rw [List.all_eq_true]
  intro e he
  obtain ⟨s, hs⟩ := h.1 e he
  rw [hs]

/-- C4: for a table that passes the fatal checks, with N identifier rows and
M valid year columns, the output has at most N times M rows, with equality
exactly when every cell of every valid year column coerces numerically
(no blank and no non-numeric cell). -/
theorem c4_output_row_count_bound (t : RawTable) (tbl : List NormalizedRecord)
    (rep : ValidationReport) (h : process_dataframe t = Except.ok (tbl, rep)) :
    tbl.length ≤ t.rows.length * (valueColPairs t).length
    ∧ (tbl.length = t.rows.length * (valueColPairs t).length
        ↔ ∀ p ∈ valueColPairs t, ∀ r ∈ t.rows,
            (toNumeric (cellAt r p.1)).isSome = true) := by
  obtain ⟨-, -, htbl, -⟩ := process_ok_inv t tbl rep h
  subst htbl
  rw [length_normalizedTable, meltTable, countP_flatMap]
  have hpt : ∀ p : Nat × Nat,
      (t.rows.map (longOf t p)).countP (fun lr => (toNumeric lr.value).isSome)
        = t.rows.countP (fun r => (toNumeric (cellAt r p.1)).isSome) := by
    intro p
    rw [List.countP_map]
    rfl
  rw [funext hpt,
    ((meltPairs_perm t).map
      (fun p => t.rows.countP (fun r => (toNumeric (cellAt r p.1)).isSome))).sum_eq]
  have hle := sum_map_le (valueColPairs t)
    (fun p => t.rows.countP (fun r => (toNumeric (cellAt r p.1)).isSome))
    t.rows.length (fun p _ => List.countP_le_length _)
  constructor
  · rw [Nat.mul_comm]
    exact hle.1
  · rw [Nat.mul_comm t.rows.length _, hle.2]
    constructor
    · intro hall p hp r hr
      exact List.countP_eq_length.mp (hall p hp) r hr
    · intro hall p hp
      exact List.countP_eq_length.mpr (fun r hr => hall p hp r hr)

/-- Witness for C4 at the sample table: one row, two valid year columns, one
non-coercible cell, so the output has 1 row, strictly fewer than 2. -/
theorem c4_output_row_count_bound_witness :
    (normalizedTable sampleTable).length
        ≤ sampleTable.rows.length * (valueColPairs sampleTable).length
      ∧ (normalizedTable sampleTable).length = 1
      ∧ sampleTable.rows.length * (valueColPairs sampleTable).length = 2 :=
  ⟨(c4_output_row_count_bound sampleTable (normalizedTable sampleTable)
      (buildReport sampleTable) rfl).1, by decide, by decide⟩

/-- C3: two differently-labeled columns normalizing to the same year are
both kept as separate melted value columns — for every year key, the long
table holds one row per (column normalizing to that year, identifier row)
pair, and the output holds one row per such column cell that coerces, with
no deduplication of repeated (indicator, year) combinations. -/
theorem c3_same_year_columns_kept_separately (t : RawTable)
    (tbl : List NormalizedRecord) (rep : ValidationReport) (y : Nat)
    (h : process_dataframe t = Except.ok (tbl, rep)) :
    (meltTable t).countP (fun lr => lr.year == y)
        = ((valueColPairs t).countP (fun p => p.2 == y)) * t.rows.length
    ∧ tbl.countP (fun rec => rec.year == y)
        = (((valueColPairs t).filter (fun p => p.2 == y)).map
            (fun p => t.rows.countP
              (fun r => (toNumeric (cellAt r p.1)).isSome))).sum := by
  obtain ⟨-, -, htbl, -⟩ := process_ok_inv t tbl rep h
  subst htbl
  refine ⟨countP_meltTable_year t y, ?_⟩
  rw [normalizedTable, countP_year_filterMap, meltTable, countP_flatMap]
  have hpt : ∀ p : Nat × Nat,
      (t.rows.map (longOf t p)).countP
          (fun lr => ((toNumeric lr.value).isSome && (lr.year == y)))
        = if (p.2 == y) = true
            then t.rows.countP (fun r => (toNumeric (cellAt r p.1)).isSome)
            else 0 := by
    intro p
    rw [List.countP_map]
    by_cases hp : p.2 = y
    · rw [if_pos (beq_iff_eq.mpr hp)]
      apply List.countP_congr
      intro r _
      show ((toNumeric (cellAt r p.1)).isSome && (p.2 == y)) = true
        ↔ (toNumeric (cellAt r p.1)).isSome = true
      rw [beq_iff_eq.mpr hp, Bool.and_true]
    · rw [if_neg (by rw [beq_eq_false_iff_ne.mpr hp]; exact Bool.false_ne_true)]
      apply List.countP_eq_zero.mpr
      intro r _
      show ¬ ((toNumeric (cellAt r p.1)).isSome && (p.2 == y)) = true
      rw [beq_eq_false_iff_ne.mpr hp, Bool.and_false]
      exact Bool.false_ne_true
  rw [funext hpt, sum_map_filter_ite, meltPairs_filter]

/-- Witness for C3 at a table where the labels `2021` and `2021年` both
normalize to 2021: the long table gets two rows for year 2021 from the
single identifier row, and both coercible cells reach the output. -/
theorem c3_same_year_columns_kept_separately_witness :
    (meltTable (RawTable.mk ["表单", "指标名称", "单位", "2021", "2021年"]
          [[Cell.str "A", Cell.str "M1", Cell.str "%", Cell.num 8, Cell.num 9]])).countP
        (fun lr => lr.year == 2021) = 2 * 1
    ∧ (normalizedTable (RawTable.mk ["表单", "指标名称", "单位", "2021", "2021年"]
          [[Cell.str "A", Cell.str "M1", Cell.str "%", Cell.num 8, Cell.num 9]])).countP
        (fun rec => rec.year == 2021) = 2 := by
  have h := c3_same_year_columns_kept_separately
    (RawTable.mk ["表单", "指标名称", "单位", "2021", "2021年"]
      [[Cell.str "A", Cell.str "M1", Cell.str "%", Cell.num 8, Cell.num 9]])
    (normalizedTable (RawTable.mk ["表单", "指标名称", "单位", "2021", "2021年"]
      [[Cell.str "A", Cell.str "M1", Cell.str "%", Cell.num 8, Cell.num 9]]))
    (buildReport (RawTable.mk ["表单", "指标名称", "单位", "2021", "2021年"]
      [[Cell.str "A", Cell.str "M1", Cell.str "%", Cell.num 8, Cell.num 9]]))
    2021 rfl
  constructor
  · rw [h.1]
    decide
  · rw [h.2]
    decide

/-- C8: an indicator name occurring on more than one raw row is listed in
the duplicate warning exactly once (and names occurring at most once are not
listed); all rows bearing it still flow through the melt independently — one
long row per (valid year column, raw row with that name) — and the output
keeps every such long row whose cell coerces, with no merging. -/
theorem c8_duplicate_indicators_reported_once (t : RawTable)
    (tbl : List NormalizedRecord) (rep : ValidationReport) (name : Cell)
    (h : process_dataframe t = Except.ok (tbl, rep)) :
    rep.duplicates.count name
        = (if 2 ≤ (indicatorColumn t).count name then 1 else 0)
    ∧ (meltTable t).countP (fun lr => lr.indicator == name)
        = (valueColPairs t).length
            * (t.rows.countP (fun r => idCell t r "指标名称" == name))
    ∧ tbl.countP (fun rec => rec.indicator == name)
        = (meltTable t).countP
            (fun lr => (toNumeric lr.value).isSome && (lr.indicator == name)) := by
  obtain ⟨-, -, htbl, hrep⟩ := process_ok_inv t tbl rep h
  subst htbl hrep
  exact ⟨count_duplicates t name, countP_meltTable_ind t name,
    countP_ind_filterMap (meltTable t) name⟩

/-- Witness for C8 at the duplicated-indicator table: `M1` occurs twice, is
listed once as duplicate, both rows melt, and only the coercible row's cell
reaches the output. -/
theorem c8_duplicate_indicators_reported_once_witness :
    (buildReport dupIndTable).duplicates = [Cell.str "M1"]
    ∧ (buildReport dupIndTable).duplicates.count (Cell.str "M1")
        = (if 2 ≤ (indicatorColumn dupIndTable).count (Cell.str "M1") then 1 else 0)
    ∧ (meltTable dupIndTable).countP (fun lr => lr.indicator == Cell.str "M1") = 2
    ∧ (normalizedTable dupIndTable).countP
        (fun rec => rec.indicator == Cell.str "M1") = 1 :=
  ⟨by decide,
   (c8_duplicate_indicators_reported_once dupIndTable (normalizedTable dupIndTable)
      (buildReport dupIndTable) (Cell.str "M1") rfl).1,
   by decide, by decide⟩

/-- Counterexample to C1 as stated: on a table with six coercion failures,
the sixth failing cell (year 2024, raw value `x6`) is recorded in the
internal failure record but is not individually named in the warning
message — line 101 spells out only the first five failures and lines
107–108 summarize the remaining one as a count. -/
theorem c1_counterexample_sixth_failure_only_counted :
    ∃ tbl rep, process_dataframe manyFailTable = Except.ok (tbl, rep)
      ∧ (Cell.str "M1", 2024, Cell.str "x6") ∈ rep.failures
      ∧ (Cell.str "M1", 2024, Cell.str "x6") ∉ rep.warning_named
      ∧ rep.warning_more = 1 := by
  refine ⟨normalizedTable manyFailTable, buildReport manyFailTable, rfl, ?_, ?_, ?_⟩
  · decide
  · decide
  · decide

/-- C1 amended: every non-blank cell failing numeric coercion gets its own
entry (indicator name, normalized year, original raw value) in the failure
record `failed_rows`, and that record holds nothing else; but the warning
message individually names only the first five entries and summarizes any
further failures as a count. -/
theorem c1_failures_individually_recorded (t : RawTable)
    (tbl : List NormalizedRecord) (rep : ValidationReport)
    (h : process_dataframe t = Except.ok (tbl, rep)) :
    (∀ p ∈ valueColPairs t, ∀ r ∈ t.rows, failedMask (cellAt r p.1) = true →
        (idCell t r "指标名称", p.2, cellAt r p.1) ∈ rep.failures)
    ∧ (∀ e ∈ rep.failures, ∃ p ∈ valueColPairs t, ∃ r ∈ t.rows,
        failedMask (cellAt r p.1) = true
          ∧ e = (idCell t r "指标名称", p.2, cellAt r p.1))
    ∧ rep.warning_named = rep.failures.take 5
    ∧ rep.warning_more = rep.failures.length - rep.warning_named.length := by
  obtain ⟨-, -, -, hrep⟩ := process_ok_inv t tbl rep h
  subst hrep
  refine ⟨?_, ?_, rfl, rfl⟩
  · intro p hp r hr hmask
    show _ ∈ coercionFailures t
    rw [coercionFailures]
    apply List.mem_map.mpr
    refine ⟨longOf t p r, List.mem_filter.mpr ⟨(mem_meltTable t _).mpr ⟨p, hp, r, hr, rfl⟩, hmask⟩, rfl⟩
  · intro e he
    have he2 : e ∈ coercionFailures t := he
    rw [coercionFailures] at he2
    obtain ⟨lr, hmem, heq⟩ := List.mem_map.mp he2
    obtain ⟨hmelt, hmask⟩ := List.mem_filter.mp hmem
    obtain ⟨p, hp, r, hr, hlr⟩ := (mem_meltTable t lr).mp hmelt
    subst hlr
    exact ⟨p, hp, r, hr, hmask, heq.symm⟩

/-- Witness for the amended C1 at the sample table: the `N/A` cell of the
`2021年` column is recorded with its indicator, year 2021 and raw value,
and (with a single failure) the warning names it and counts nothing. -/
theorem c1_failures_individually_recorded_witness :
    (Cell.str "GDP增速", 2021, Cell.str "N/A") ∈ (buildReport sampleTable).failures
      ∧ (buildReport sampleTable).warning_named
          = (buildReport sampleTable).failures.take 5 := by
  have h := c1_failures_individually_recorded sampleTable
    (normalizedTable sampleTable) (buildReport sampleTable) rfl
  exact ⟨h.1 (4, 2021) (by decide)
      [Cell.str "经济增长", Cell.str "GDP增速", Cell.str "%", Cell.num 6, Cell.str "N/A"]
      (by decide) (by decide),
    h.2.2.1⟩

/-- Counterexample to C2 as stated: when the indicator name `M1` occurs on
two rows, one with a failing `2019` cell and one with a coercible one, the
pair (`M1`, 2019) appears in the coercion-failure list and at the same time
in the output table. -/
theorem c2_counterexample_pair_in_both :
    ∃ tbl rep, process_dataframe dupIndTable = Except.ok (tbl, rep)
      ∧ (Cell.str "M1", 2019, Cell.str "N/A") ∈ rep.failures
      ∧ ∃ rec ∈ tbl, rec.indicator = Cell.str "M1" ∧ rec.year = 2019 := by
  refine ⟨normalizedTable dupIndTable, buildReport dupIndTable, rfl, ?_, ?_⟩
  · decide
  · decide

/-- C2 amended: when indicator names are pairwise distinct across rows and
no two value columns normalize to the same year — so an (indicator, year)
pair identifies at most one cell — every pair in the coercion-failure list
is absent from the output table; and, unconditionally on every input
accepted by the fatal checks, every non-blank cell whose (indicator, year)
pair is absent from the output appears in the coercion-failure list. -/
theorem c2_failure_list_matches_output (t : RawTable)
    (tbl : List NormalizedRecord) (rep : ValidationReport)
    (h : process_dataframe t = Except.ok (tbl, rep)) :
    ((indicatorColumn t).Nodup → ((valueColPairs t).map Prod.snd).Nodup →
      ∀ e ∈ rep.failures, ¬ ∃ rec ∈ tbl, rec.indicator = e.1 ∧ rec.year = e.2.1)
    ∧ (∀ p ∈ valueColPairs t, ∀ r ∈ t.rows, (cellAt r p.1).notna = true →
        (¬ ∃ rec ∈ tbl, rec.indicator = idCell t r "指标名称" ∧ rec.year = p.2) →
        (idCell t r "指标名称", p.2, cellAt r p.1) ∈ rep.failures) := by
  obtain ⟨-, -, htbl, hrep⟩ := process_ok_inv t tbl rep h
  subst htbl hrep
  constructor
  · intro hind hyr e he
    have he2 : e ∈ coercionFailures t := he
    rw [coercionFailures] at he2
    obtain ⟨lr, hmem, heqe⟩ := List.mem_map.mp he2
    obtain ⟨hmelt, hmask⟩ := List.mem_filter.mp hmem
    obtain ⟨p, hp, r, hr, hlr⟩ := (mem_meltTable t lr).mp hmelt
    subst hlr
    subst heqe
    rintro ⟨rec, hrec, hindeq, hyeareq⟩
    have hrec2 : rec ∈ normalizedTable t := hrec
    rw [normalizedTable] at hrec2
    obtain ⟨lr2, hlr2mem, heq2⟩ := List.mem_filterMap.mp hrec2
    obtain ⟨v, hv, hrecmk⟩ := Option.map_eq_some'.mp heq2
    obtain ⟨p2, hp2, r2, hr2, hlr2⟩ := (mem_meltTable t lr2).mp hlr2mem
    subst hlr2
    subst hrecmk
    have hii : idCell t r2 "指标名称" = idCell t r "指标名称" := hindeq
    have hyy : p2.2 = p.2 := hyeareq
    have hrr : r2 = r := List.inj_on_of_nodup_map hind hr2 hr hii
    have hpp : p2 = p := List.inj_on_of_nodup_map hyr hp2 hp hyy
    have hv2 : toNumeric (cellAt r p.1) = some v := by
      have hv3 : toNumeric (cellAt r2 p2.1) = some v := hv
      rw [hrr, hpp] at hv3
      exact hv3
    have hmask3 : failedMask (cellAt r p.1) = true := hmask
    have hfalse : failedMask (cellAt r p.1) = false := by
      show ((cellAt r p.1).notna && (toNumeric (cellAt r p.1)).isNone) = false
      rw [hv2]
      exact Bool.and_false _
    rw [hfalse] at hmask3
    exact Bool.noConfusion hmask3
  · intro p hp r hr hnotna habs
    cases hval : cellAt r p.1 with
    | blank =>
      rw [hval] at hnotna
      exact Bool.noConfusion hnotna
    | num v =>
      exfalso
      apply habs
      refine ⟨mkRecord (longOf t p r) v, ?_, rfl, rfl⟩
      show mkRecord (longOf t p r) v ∈ normalizedTable t
      rw [normalizedTable]
      apply List.mem_filterMap.mpr
      refine ⟨longOf t p r, (mem_meltTable t _).mpr ⟨p, hp, r, hr, rfl⟩, ?_⟩
      have hsome : toNumeric (longOf t p r).value = some v := by
        show toNumeric (cellAt r p.1) = some v
        rw [hval, toNumeric_num]
      rw [hsome]
      rfl
    | str s =>
      show _ ∈ coercionFailures t
      rw [coercionFailures]
      apply List.mem_map.mpr
      refine ⟨longOf t p r,
        List.mem_filter.mpr ⟨(mem_meltTable t _).mpr ⟨p, hp, r, hr, rfl⟩, ?_⟩, ?_⟩
      · show failedMask (cellAt r p.1) = true
        rw [hval, failedMask_str]
      · show ((longOf t p r).indicator, (longOf t p r).year, (longOf t p r).value)
          = (idCell t r "指标名称", p.2, Cell.str s)
        rw [← hval]
        rfl

/-- Witness for the amended C2 at the sample table: by direction one (its
indicator names are unique and its normalized years distinct) the reported
pair (`GDP增速`, 2021) is absent from the output table, and by the
unconditional direction two the non-blank `N/A` cell, whose pair is absent
from the output, is in the coercion-failure list. -/
theorem c2_failure_list_matches_output_witness :
    (¬ ∃ rec ∈ normalizedTable sampleTable,
        rec.indicator = Cell.str "GDP增速" ∧ rec.year = 2021)
    ∧ (Cell.str "GDP增速", 2021, Cell.str "N/A")
        ∈ (buildReport sampleTable).failures := by
  have h := c2_failure_list_matches_output sampleTable
    (normalizedTable sampleTable) (buildReport sampleTable) rfl
  refine ⟨h.1 (by decide) (by decide)
      (Cell.str "GDP增速", 2021, Cell.str "N/A") (by decide), ?_⟩
  exact h.2 (4, 2021) (by decide)
    [Cell.str "经济增长", Cell.str "GDP增速", Cell.str "%", Cell.num 6, Cell.str "N/A"]
    (by decide) (by decide) (by decide)

/-- Counterexample to C7 as stated: a raw row whose category cell is blank
still reaches the output (nothing filters identifier cells), so the output
row's category is null. -/
theorem c7_counterexample_blank_category :
    ∃ tbl rep, process_dataframe blankIdTable = Except.ok (tbl, rep)
      ∧ ∃ rec ∈ tbl, rec.category = Cell.blank := by
  refine ⟨normalizedTable blankIdTable, buildReport blankIdTable, rfl, ?_⟩
  decide

/-- C7 amended: `year` and `value` are unconditionally non-null — every
output row's value is the content of a numerically coercible cell and its
year a normalized integer year — while `category`, `indicator_name` and
`unit` are non-null provided the corresponding identifier cells of the raw
rows are non-blank. -/
theorem c7_fields_non_null (t : RawTable) (tbl : List NormalizedRecord)
    (rep : ValidationReport) (h : process_dataframe t = Except.ok (tbl, rep)) :
    (∀ rec ∈ tbl, ∃ p ∈ valueColPairs t, ∃ r ∈ t.rows,
        cellAt r p.1 = Cell.num rec.value ∧ rec.year = p.2)
    ∧ ((∀ r ∈ t.rows, (idCell t r "表单").notna = true
          ∧ (idCell t r "指标名称").notna = true
          ∧ (idCell t r "单位").notna = true) →
        ∀ rec ∈ tbl, rec.category.notna = true ∧ rec.indicator.notna = true
          ∧ rec.unit.notna = true) := by
  obtain ⟨-, -, htbl, -⟩ := process_ok_inv t tbl rep h
  subst htbl
  have hdecomp : ∀ rec ∈ normalizedTable t, ∃ p ∈ valueColPairs t, ∃ r ∈ t.rows, ∃ v,
      toNumeric (cellAt r p.1) = some v ∧ rec = mkRecord (longOf t p r) v := by
    intro rec hrec
    rw [normalizedTable] at hrec
    obtain ⟨lr, hlrmem, heq⟩ := List.mem_filterMap.mp hrec
    obtain ⟨v, hv, hmk⟩ := Option.map_eq_some'.mp heq
    obtain ⟨p, hp, r, hr, hlr⟩ := (mem_meltTable t lr).mp hlrmem
    subst hlr
    exact ⟨p, hp, r, hr, v, hv, hmk.symm⟩
  constructor
  · intro rec hrec
    obtain ⟨p, hp, r, hr, v, hv, hmk⟩ := hdecomp rec hrec
    subst hmk
    refine ⟨p, hp, r, hr, ?_, rfl⟩
    cases hc : cellAt r p.1 with
    | blank => rw [hc, toNumeric_blank] at hv; exact Option.noConfusion hv
    | num w =>
      rw [hc, toNumeric_num, Option.some.injEq] at hv
      show Cell.num w = Cell.num v
      rw [hv]
    | str s => rw [hc, toNumeric_str] at hv; exact Option.noConfusion hv
  · intro hid rec hrec
    obtain ⟨p, hp, r, hr, v, hv, hmk⟩ := hdecomp rec hrec
    subst hmk
    exact ⟨(hid r hr).1, (hid r hr).2.1, (hid r hr).2.2⟩

/-- Witness for the amended C7 at the sample table (all identifier cells
non-blank): every output row has non-blank category, indicator and unit. -/
theorem c7_fields_non_null_witness :
    (normalizedTable sampleTable).all
        (fun rec => rec.category.notna && (rec.indicator.notna && rec.unit.notna))
      = true := by
  have h := (c7_fields_non_null sampleTable (normalizedTable sampleTable)
    (buildReport sampleTable) rfl).2 (by decide)
  rw [List.all_eq_true]
  intro rec hrec
  obtain ⟨h1, h2, h3⟩ := h rec hrec
  rw [h1, h2, h3]
  rfl

theorem contains_eq_false_iff (l : List String) (a : String) :
    l.contains a = false ↔ a ∉ l := by
  constructor
  · intro h hmem
    have h2 : l.contains a = true := List.elem_iff.mpr hmem
    rw [h] at h2
    exact Bool.noConfusion h2
  · intro h
    cases hc : l.contains a with
    | false => rfl
    | true => exact absurd (List.elem_iff.mp hc) h

theorem empty_appendColumn (t : RawTable) (c : String) (vs : List Cell)
    (hlen : vs.length = t.rows.length) (hlab : t.labels ≠ []) :
    (appendColumn t c vs).empty = t.empty := by
  simp only [appendColumn, RawTable.empty]
  have h1 : (t.labels ++ [c]).isEmpty = false := by
    cases h : t.labels ++ [c] with
    | nil => exact absurd h (by simp)
    | cons a l => rfl
  have h2 : t.labels.isEmpty = false := by
    cases h : t.labels with
    | nil => exact absurd h hlab
    | cons a l => rfl
  have h3 : (List.zipWith (fun r v => r ++ [v]) t.rows vs).isEmpty = t.rows.isEmpty := by
    cases hr : t.rows with
    | nil => rw [List.zipWith_nil_left]
    | cons a as =>
      cases hv : vs with
      | nil =>
        rw [hr, hv] at hlen
        exact absurd hlen (by simp)
      | cons b bs => rw [List.zipWith_cons_cons]; rfl
  rw [h1, h2, h3]

theorem missing_appendColumn (t : RawTable) (c : String) (vs : List Cell)
    (hcreq : c ∉ REQUIRED_COLS) :
    missing_cols (appendColumn t c vs) = missing_cols t := by
  rw [missing_cols, missing_cols]
  apply List.filter_congr
  intro col hcol
  have hne : col ≠ c := fun h => hcreq (h ▸ hcol)
  have hAB : (appendColumn t c vs).labels.contains col = t.labels.contains col := by
    show (t.labels ++ [c]).contains col = t.labels.contains col
    by_cases hmem : col ∈ t.labels
    · have h1 : t.labels.contains col = true := List.elem_iff.mpr hmem
      have h2 : (t.labels ++ [c]).contains col = true :=
        List.elem_iff.mpr (List.mem_append.mpr (Or.inl hmem))
      rw [h1, h2]
    · have h1 : t.labels.contains col = false := (contains_eq_false_iff _ _).mpr hmem
      have h2 : (t.labels ++ [c]).contains col = false := by
        apply (contains_eq_false_iff _ _).mpr
        intro hmm
        rcases List.mem_append.mp hmm with hm | hm
        · exact hmem hm
        · rw [List.mem_singleton] at hm
          exact hne hm
      rw [h1, h2]
  rw [hAB]

theorem colPos_appendColumn (t : RawTable) (c : String) (vs : List Cell)
    (name : String) (hne : name ≠ c) :
    colPos (appendColumn t c vs) name = colPos t name := by
  rw [colPos, colPos]
  show (t.labels ++ [c]).findIdx? (fun l => l == name) = _
  rw [List.findIdx?_append]
  have h1 : [c].findIdx? (fun l => l == name) = none := by
    have hbeq : (c == name) = false := beq_eq_false_iff_ne.mpr (fun h => hne h.symm)
    simp [List.findIdx?_cons, hbeq]
  rw [h1]
  simp

theorem idCell_appendColumn (t : RawTable) (c : String) (vs : List Cell)
    (name : String) (r : List Cell) (v : Cell) (hne : name ≠ c)
    (hlen2 : t.labels.length ≤ r.length) :
    idCell (appendColumn t c vs) (r ++ [v]) name = idCell t r name := by
  rw [idCell, idCell, colPos_appendColumn t c vs name hne]
  cases hcp : colPos t name with
  | none => rfl
  | some j =>
    have hj : j < t.labels.length := (List.findIdx?_eq_some_iff_findIdx_eq.mp hcp).1
    have hjr : j < r.length := lt_of_lt_of_le hj hlen2
    show cellAt (r ++ [v]) j = cellAt r j
    rw [cellAt, cellAt, List.getD_eq_getElem?_getD, List.getD_eq_getElem?_getD,
      List.getElem?_append_left hjr]

theorem valueColPairs_appendColumn (t : RawTable) (c : String) (vs : List Cell)
    (hcreq : c ∉ REQUIRED_COLS) (hdig : stripNonDigits c = "") :
    valueColPairs (appendColumn t c vs) = valueColPairs t := by
  simp only [valueColPairs, appendColumn]
  have hl : (t.labels ++ [c]).length = t.labels.length + 1 := by simp
  rw [hl, List.range_succ, List.filterMap_append]
  have hcf : REQUIRED_COLS.contains c = false := (contains_eq_false_iff _ _).mpr hcreq
  have hget : (t.labels ++ [c])[t.labels.length]? = some c := by simp
  have h2 : (List.filterMap (fun j =>
      ((t.labels ++ [c])[j]?).bind (fun l =>
        if REQUIRED_COLS.contains l then none
        else (cleanLabel l).map (fun y => (j, y)))) [t.labels.length]) = [] := by
    rw [List.filterMap_cons, hget, Option.some_bind, hcf, cleanLabel, hdig]
    rfl
  rw [h2, List.append_nil]
  apply List.filterMap_congr
  intro j hj
  have hjlt : j < t.labels.length := List.mem_range.mp hj
  rw [List.getElem?_append_left hjlt]

theorem fst_lt_of_mem_valueColPairs (t : RawTable) (p : Nat × Nat)
    (hp : p ∈ valueColPairs t) : p.1 < t.labels.length := by
  rw [valueColPairs] at hp
  obtain ⟨j, hjmem, hj⟩ := List.mem_filterMap.mp hp
  cases hget : t.labels[j]? with
  | none =>
    rw [hget, Option.none_bind] at hj
    exact Option.noConfusion hj
  | some l =>
    rw [hget, Option.some_bind] at hj
    by_cases hreq : REQUIRED_COLS.contains l
    · rw [if_pos hreq] at hj
      exact Option.noConfusion hj
    · rw [if_neg hreq] at hj
      cases hcl : cleanLabel l with
      | none => rw [hcl] at hj; exact Option.noConfusion hj
      | some y =>
        rw [hcl] at hj
        injection hj with hj2
        rw [← hj2]
        exact List.mem_range.mp hjmem

theorem map_zipWith_snoc {α : Type} (f g : List Cell → α) :
    ∀ (rows : List (List Cell)) (vs : List Cell), vs.length = rows.length →
      (∀ r ∈ rows, ∀ v, f (r ++ [v]) = g r) →
      (List.zipWith (fun r v => r ++ [v]) rows vs).map f = rows.map g
  | [], vs, _, _ => by rw [List.zipWith_nil_left]; rfl
  | a :: as, [], hlen, _ => absurd hlen (by simp)
  | a :: as, b :: bs, hlen, hfg => by
    rw [List.zipWith_cons_cons, List.map_cons, List.map_cons,
      hfg a (List.mem_cons_self a as) b,
      map_zipWith_snoc f g as bs (by simpa using hlen)
        (fun r hr v => hfg r (List.mem_cons_of_mem a hr) v)]

theorem meltPairs_appendColumn (t : RawTable) (c : String) (vs : List Cell)
    (hcreq : c ∉ REQUIRED_COLS) (hdig : stripNonDigits c = "") :
    meltPairs (appendColumn t c vs) = meltPairs t := by
  rw [meltPairs, meltPairs, valueColPairs_appendColumn t c vs hcreq hdig]

theorem meltTable_appendColumn (t : RawTable) (c : String) (vs : List Cell)
    (hwf : ∀ r ∈ t.rows, r.length = t.labels.length)
    (hlen : vs.length = t.rows.length)
    (hcreq : c ∉ REQUIRED_COLS) (hdig : stripNonDigits c = "") :
    meltTable (appendColumn t c vs) = meltTable t := by
  rw [meltTable, meltTable, meltPairs_appendColumn t c vs hcreq hdig]
  apply List.flatMap_congr
  intro p hp
  have hp2 : p ∈ valueColPairs t := (mem_meltPairs t p).mp hp
  have hjlab : p.1 < t.labels.length := fst_lt_of_mem_valueColPairs t p hp2
  show (List.zipWith (fun r v => r ++ [v]) t.rows vs).map (longOf (appendColumn t c vs) p)
      = t.rows.map (longOf t p)
  apply map_zipWith_snoc _ _ t.rows vs hlen
  intro r hr v
  have hrlen : t.labels.length ≤ r.length := Nat.le_of_eq (hwf r hr).symm
  have hjr : p.1 < r.length := lt_of_lt_of_le hjlab hrlen
  have hne1 : "表单" ≠ c := fun h => hcreq (h ▸ (by decide : "表单" ∈ REQUIRED_COLS))
  have hne2 : "指标名称" ≠ c := fun h => hcreq (h ▸ (by decide : "指标名称" ∈ REQUIRED_COLS))
  have hne3 : "单位" ≠ c := fun h => hcreq (h ▸ (by decide : "单位" ∈ REQUIRED_COLS))
  have h1 := idCell_appendColumn t c vs "表单" r v hne1 hrlen
  have h2 := idCell_appendColumn t c vs "指标名称" r v hne2 hrlen
  have h3 := idCell_appendColumn t c vs "单位" r v hne3 hrlen
  have h4 : cellAt (r ++ [v]) p.1 = cellAt r p.1 := by
    rw [cellAt, cellAt, List.getD_eq_getElem?_getD, List.getD_eq_getElem?_getD,
      List.getElem?_append_left hjr]
  simp only [longOf, h1, h2, h3, h4]

theorem indicatorColumn_appendColumn (t : RawTable) (c : String) (vs : List Cell)
    (hwf : ∀ r ∈ t.rows, r.length = t.labels.length)
    (hlen : vs.length = t.rows.length)
    (hcreq : c ∉ REQUIRED_COLS) :
    indicatorColumn (appendColumn t c vs) = indicatorColumn t := by
  rw [indicatorColumn, indicatorColumn]
  show (List.zipWith (fun r v => r ++ [v]) t.rows vs).map
      (fun r => idCell (appendColumn t c vs) r "指标名称")
    = t.rows.map (fun r => idCell t r "指标名称")
  apply map_zipWith_snoc _ _ t.rows vs hlen
  intro r hr v
  have hne2 : "指标名称" ≠ c := fun h => hcreq (h ▸ (by decide : "指标名称" ∈ REQUIRED_COLS))
  exact idCell_appendColumn t c vs "指标名称" r v hne2 (Nat.le_of_eq (hwf r hr).symm)

/-- C9: appending a non-identifier column whose label contains no digit
changes nothing: the column is excluded from the value columns, contributes
zero rows to the output, and produces no error and no warning — on a
well-formed table (rows as long as the label list, one appended cell per
row, at least one existing column), processing the extended table gives
exactly the same result, fatal or successful, as processing the original. -/
theorem c9_digitless_column_contributes_nothing (t : RawTable) (c : String)
    (vs : List Cell)
    (hwf : ∀ r ∈ t.rows, r.length = t.labels.length)
    (hlen : vs.length = t.rows.length)
    (hcreq : c ∉ REQUIRED_COLS)
    (hdig : stripNonDigits c = "")
    (hlab : t.labels ≠ []) :
    process_dataframe (appendColumn t c vs) = process_dataframe t := by
  rw [process_dataframe, process_dataframe, process_dataframe_frame,
    process_dataframe_frame, empty_appendColumn t c vs hlen hlab, copy_eq, copy_eq,
    missing_appendColumn t c vs hcreq]
  by_cases he : t.empty
  · rw [if_pos he, if_pos he]
  · rw [if_neg he, if_neg he]
    by_cases hm : (missing_cols t).isEmpty
    · rw [if_pos hm, if_pos hm]
      have hmelt := meltTable_appendColumn t c vs hwf hlen hcreq hdig
      have hn : normalizedTable (appendColumn t c vs) = normalizedTable t := by
        rw [normalizedTable, normalizedTable, hmelt]
      have hf : coercionFailures (appendColumn t c vs) = coercionFailures t := by
        rw [coercionFailures, coercionFailures, hmelt]
      have hd : duplicates (appendColumn t c vs) = duplicates t := by
        rw [duplicates, duplicates, indicatorColumn_appendColumn t c vs hwf hlen hcreq]
      have hb : buildReport (appendColumn t c vs) = buildReport t := by
        rw [buildReport, buildReport, hf, hd]
      rw [hd, hn, hb]
      by_cases hj : (duplicates t).any (fun d => !d.isStr)
      · rw [if_pos hj, if_pos hj]
      · rw [if_neg hj, if_neg hj]
        by_cases hu : (normalizedTable t).any (fun rec => rec.unit.notna && !rec.unit.isStr)
        · rw [if_pos hu, if_pos hu]
        · rw [if_neg hu, if_neg hu]
    · rw [if_neg hm, if_neg hm]

/-- Witness for C9: appending the digitless column `年份说明` to the sample
table leaves the result of processing unchanged. -/
theorem c9_digitless_column_contributes_nothing_witness :
    process_dataframe (appendColumn sampleTable "年份说明" [Cell.str "备注"])
      = process_dataframe sampleTable :=
  c9_digitless_column_contributes_nothing sampleTable "年份说明" [Cell.str "备注"]
    (by decide) (by decide) (by decide) (by decide) (by decide)

end Central
